import Mathlib

/-!
Verification of the layered NFT puzzle decoder
(chia/wallet/nft_wallet/uncurry_nft.py, classmethod UncurriedNFT.uncurry).

The decoder itself (the layer matcher, the metadata loop and the result
assembly) is translated from the source file.  The tree value model and the
primitives it consumes (Program.uncurry, Program.as_iter, get_tree_hash,
the curry constructor) live outside the provided sources and are declared
external collaborators by the spec, so they are modelled from the spec
(sections 3, 4.1 and the glossary), as noted on each such definition.
-/

/-- CLVM value tree: an atom (an immutable byte sequence, bytes modelled as
naturals) or a pair of two subtrees, mirroring the Program/SExp value model
of the source (spec section 3, Tree node). -/
inductive Tr where
  | atom : List Nat → Tr
  | pair : Tr → Tr → Tr
deriving DecidableEq, Repr

/-- NIL sentinel: the empty atom.  It terminates proper lists and is also
the encoding of both the empty list Program.to([]) and the integer zero
Program.to(0) in the value model. -/
def nilT : Tr := Tr.atom []

/-- Modelled from the spec (section 3): proper-list check — a right-nested
chain of pairs terminating in the empty-atom sentinel. -/
def Tr.isProperList : Tr → Bool
  | .atom bs => bs.isEmpty
  | .pair _ r => r.isProperList

/-- Modelled from the spec (section 3): list iteration over a right-nested
pair chain (Program.as_iter), failing when the chain is not NIL-terminated. -/
def Tr.asIter : Tr → Option (List Tr)
  | .atom bs => if bs.isEmpty then some [] else none
  | .pair f r => (r.asIter).map (f :: ·)

/-- Right-nested proper list constructor (Program.to of a python list). -/
def toProperList : List Tr → Tr
  | [] => nilT
  | t :: ts => Tr.pair t (toProperList ts)

/-- Modelled from the spec (section 3, Content fingerprint): get_tree_hash,
supplied externally.  The spec stipulates that trees with equal fingerprints
are treated as the same program, so the fingerprint is modelled as an
injective structural serialization of the tree into a byte list. -/
def Tr.treeHash : Tr → List Nat
  | .atom bs => 0 :: bs.length :: bs
  | .pair f r => 1 :: (f.treeHash ++ r.treeHash)

/-- Modelled from the spec (section 4.1): the Uncurry Primitive.
uncurry(node) yields (module code, bound-argument list) and fails with
ShapeError when the node is not a pair or when its rest is not a properly
NIL-terminated list.  The argument sequence is returned as the underlying
tree and is iterated by callers via Tr.asIter. -/
def Tr.uncurry (p : Tr) : Option (Tr × Tr) :=
  match p with
  | .atom _ => none
  | .pair m argsTr => if argsTr.isProperList then some (m, argsTr) else none

/-- Modelled from the spec (section 3, Curry wrapper, and glossary): the
reference curry constructor — a curried node is a pair of the module code
and the proper list of its bound arguments. -/
def Tr.curry (m : Tr) (args : List Tr) : Tr := Tr.pair m (toProperList args)

/-- Modelled from the spec (section 6): the three externally supplied
reference modules, loaded by load_clvm at the top of the source file and
treated as immutable process-wide constants. -/
structure Mods where
  SINGLETON_TOP_LAYER_MOD : Tr
  NFT_MOD : Tr
  NFT_OWNERSHIP_LAYER : Tr

/-- Decoding errors.  The source raises ValueError at four syntactic sites;
the catch-all except clause of the state-layer try block collapses several
distinct failure points into one ValueError, so, following the taxonomy of
spec section 4.4, each failure point gets its own constructor here.  The
two ShapeError constructors stand for a failure of the uncurry primitive
at the two call sites that are outside both try blocks, where the raw
exception escapes; innerShapeError is a failure of the uncurry primitive
on the state-layer inner puzzle, which happens inside the try block and is
re-raised by the except clause. -/
inductive DecodeError where
  | outerShapeError
  | unknownOuterModule
  | malformedSingletonStruct
  | stateShapeError
  | unknownStateModule
  | stateLayerArityError
  | malformedMetadata
  | innerShapeError
  | malformedOwnershipLayer
  | malformedTransferProgram
  | malformedOwnershipInnerPuzzle
deriving DecidableEq, Repr

/-- The eight semantic metadata fields.  Source lines 111-118 set their
defaults; note that the defaults Program.to([]) and Program.to(0) are both
the empty atom, and Program.to(1) is the one-byte atom 1. -/
@[ext]
structure MetaFields where
  data_uris : Tr
  data_hash : Tr
  meta_uris : Tr
  meta_hash : Tr
  license_uris : Tr
  license_hash : Tr
  series_number : Tr
  series_total : Tr
deriving DecidableEq, Repr

/-- Defaults of the metadata fields (source lines 111-118). -/
def metaInit : MetaFields :=
  { data_uris := nilT
    data_hash := Tr.atom []
    meta_uris := nilT
    meta_hash := Tr.atom []
    license_uris := nilT
    license_hash := Tr.atom []
    series_number := Tr.atom [1]
    series_total := Tr.atom [1] }

/-- Byte content of the metadata key b"u". -/
def uKey : List Nat := [117]

/-- Byte content of the metadata key b"h". -/
def hKey : List Nat := [104]

/-- Byte content of the metadata key b"mu". -/
def muKey : List Nat := [109, 117]

/-- Byte content of the metadata key b"mh". -/
def mhKey : List Nat := [109, 104]

/-- Byte content of the metadata key b"lu". -/
def luKey : List Nat := [108, 117]

/-- Byte content of the metadata key b"lh". -/
def lhKey : List Nat := [108, 104]

/-- Byte content of the metadata key b"sn". -/
def snKey : List Nat := [115, 110]

/-- Byte content of the metadata key b"st". -/
def stKey : List Nat := [115, 116]

/-- The eight sequential if statements of the metadata loop body (source
lines 121-136) for an entry whose key is the atom kb: every matching
comparison rebinds its field to the entry's rest. -/
def updAtomKey (m : MetaFields) (kb : List Nat) (v : Tr) : MetaFields :=
  let m := if kb = uKey then { m with data_uris := v } else m
  let m := if kb = hKey then { m with data_hash := v } else m
  let m := if kb = muKey then { m with meta_uris := v } else m
  let m := if kb = mhKey then { m with meta_hash := v } else m
  let m := if kb = luKey then { m with license_uris := v } else m
  let m := if kb = lhKey then { m with license_hash := v } else m
  let m := if kb = snKey then { m with series_number := v } else m
  let m := if kb = stKey then { m with series_total := v } else m
  m

/-- One iteration of the metadata loop (source lines 120-136).
kv_pair.first() fails on an atom entry (a ValueError swallowed into the
state-layer catch-all); an entry whose first child is itself a pair yields
no atom from as_atom, so none of the eight comparisons match and the entry
is ignored, like any other unrecognized key. -/
def updMeta (m : MetaFields) (kv : Tr) : Option MetaFields :=
  match kv with
  | .atom _ => none
  | .pair (.atom kb) v => some (updAtomKey m kb v)
  | .pair (.pair _ _) _ => some m

/-- The metadata loop over an already materialized entry list. -/
def foldMeta : MetaFields → List Tr → Option MetaFields
  | m, [] => some m
  | m, kv :: rest =>
    match updMeta m kv with
    | none => none
    | some m2 => foldMeta m2 rest

/-- Metadata Decoder (source lines 111-136): iterate metadata.as_iter()
starting from the defaults. -/
def decodeMetadata (metadata : Tr) : Option MetaFields :=
  match metadata.asIter with
  | none => none
  | some kvs => foldMeta metaInit kvs

/-- Key bytes of a metadata entry: the atom content of its first child, if
the entry is a pair whose first child is an atom. -/
def kvKey : Tr → Option (List Nat)
  | .pair (.atom kb) _ => some kb
  | _ => none

/-- Value carried by the last entry (in iteration order) whose key is the
atom k, if any. -/
def lastVal (k : List Nat) : List Tr → Option Tr
  | [] => none
  | kv :: rest =>
    match lastVal k rest with
    | some v => some v
    | none =>
      match kv with
      | .pair (.atom kb) v => if kb = k then some v else none
      | _ => none

/-- Whether a tree node is a pair. -/
def Tr.isPairNode : Tr → Bool
  | .pair _ _ => true
  | .atom _ => false

/-- The ownership-group fields extracted (or left absent) by the optional
ownership-layer step, plus the resulting p2 puzzle. -/
structure OwnershipInfo where
  owner_did : Option Tr
  nft_inner_puzzle_hash : Option Tr
  transfer_program_hash : Option Tr
  transfer_program_curry_params : Option Tr
  royalty_address : Option Tr
  trade_price_percentage : Option Tr
  p2_puzzle : Tr
deriving DecidableEq, Repr

/-- The ownership-absent outcome (source line 152): every ownership field
keeps its initial None and the p2 puzzle is the inner puzzle itself. -/
def noOwnership (p2 : Tr) : OwnershipInfo :=
  { owner_did := none
    nft_inner_puzzle_hash := none
    transfer_program_hash := none
    transfer_program_curry_params := none
    royalty_address := none
    trade_price_percentage := none
    p2_puzzle := p2 }

/-- Result of the optional ownership-layer step. -/
inductive InnerResult where
  | ok : OwnershipInfo → InnerResult
  | err : DecodeError → InnerResult
deriving DecidableEq, Repr

/-- Optional ownership-layer step (source lines 144-152).  The source
compares the uncurried module mod_hash, a Program, against the byte value
NFT_OWNERSHIP_LAYER.get_tree_hash(); clvm equality lifts a byte value to
the atom of those bytes, so the test is equality of mod_hash with that
atom.  Failures inside the taken branch are ValueErrors swallowed by the
state-layer catch-all; a failure of the uncurry primitive itself on the
inner puzzle is likewise caught by the catch-all and is fatal. -/
def innerStep (mods : Mods) (inner_puzzle : Tr) : InnerResult :=
  match inner_puzzle.uncurry with
  | none => .err .innerShapeError
  | some (mod_hash, ol_args) =>
    if mod_hash = Tr.atom mods.NFT_OWNERSHIP_LAYER.treeHash then
      match ol_args.asIter with
      | some [current_did, transfer_program, nft_inner_puzzle] =>
        match transfer_program.uncurry with
        | none => .err .malformedTransferProgram
        | some (transfer_program_mod, transfer_program_args) =>
          match nft_inner_puzzle.uncurry with
          | none => .err .malformedOwnershipInnerPuzzle
          | some (nft_inner_puzzle_mod, nft_inner_puzzle_args) =>
            match transfer_program_args.asIter with
            | some [_t0, royalty_address, royalty_percentage, _t3, _t4] =>
              match nft_inner_puzzle_args.asIter with
              | some [_n0, _n1, p2_puzzle] =>
                .ok { owner_did := some current_did
                      nft_inner_puzzle_hash := some nft_inner_puzzle_mod
                      transfer_program_hash := some transfer_program_mod
                      transfer_program_curry_params := some transfer_program_args
                      royalty_address := some royalty_address
                      trade_price_percentage := some royalty_percentage
                      p2_puzzle := p2_puzzle }
              | _ => .err .malformedOwnershipInnerPuzzle
            | _ => .err .malformedTransferProgram
      | _ => .err .malformedOwnershipLayer
    else
      .ok (noOwnership inner_puzzle)

/-- The decoded record, field for field the frozen dataclass UncurriedNFT
of the source.  owner_pubkey is typed Optional G1Element in the source;
the decoder never builds a G1Element, so the payload type is opaque here. -/
structure UncurriedNFT where
  nft_mod_hash : Tr
  nft_state_layer : Tr
  singleton_struct : Tr
  singleton_mod_hash : Tr
  singleton_launcher_id : Tr
  launcher_puzhash : Tr
  metadata_updater_hash : Tr
  metadata : Tr
  data_uris : Tr
  data_hash : Tr
  meta_uris : Tr
  meta_hash : Tr
  license_uris : Tr
  license_hash : Tr
  series_number : Tr
  series_total : Tr
  inner_puzzle : Tr
  p2_puzzle : Tr
  owner_did : Option Tr
  owner_pubkey : Option Unit
  nft_inner_puzzle_hash : Option Tr
  transfer_program_hash : Option Tr
  transfer_program_curry_params : Option Tr
  royalty_address : Option Tr
  trade_price_percentage : Option Tr
deriving DecidableEq, Repr

/-- Result of a decode call: the record or a tagged error (spec section 6). -/
inductive DecodeResult where
  | ok : UncurriedNFT → DecodeResult
  | err : DecodeError → DecodeResult
deriving DecidableEq, Repr

/-- Result Assembler (source lines 155-181): the single constructor call
building the record.  The source passes pubkey, which is still None on
every path, as owner_pubkey. -/
def assemble (smh lid lph singleton_struct nft_state_layer nft_mod_hash
    metadata metadata_updater_hash inner_puzzle : Tr)
    (mf : MetaFields) (oi : OwnershipInfo) : UncurriedNFT :=
  { nft_mod_hash := nft_mod_hash
    nft_state_layer := nft_state_layer
    singleton_struct := singleton_struct
    singleton_mod_hash := smh
    singleton_launcher_id := lid
    launcher_puzhash := lph
    metadata_updater_hash := metadata_updater_hash
    metadata := metadata
    data_uris := mf.data_uris
    data_hash := mf.data_hash
    meta_uris := mf.meta_uris
    meta_hash := mf.meta_hash
    license_uris := mf.license_uris
    license_hash := mf.license_hash
    series_number := mf.series_number
    series_total := mf.series_total
    inner_puzzle := inner_puzzle
    p2_puzzle := oi.p2_puzzle
    owner_did := oi.owner_did
    owner_pubkey := none
    nft_inner_puzzle_hash := oi.nft_inner_puzzle_hash
    transfer_program_hash := oi.transfer_program_hash
    transfer_program_curry_params := oi.transfer_program_curry_params
    royalty_address := oi.royalty_address
    trade_price_percentage := oi.trade_price_percentage }

/-- State-layer tail of the decoder (source lines 107-181), entered with
the state-layer argument sequence already materialized: the exactly-4
destructuring, the metadata loop, the optional ownership step and the
result assembly, all inside the try block whose except clause produces the
single state-layer ValueError. -/
def stateArgsStep (mods : Mods) (smh lid lph singleton_struct nft_state_layer : Tr)
    (args : List Tr) : DecodeResult :=
  match args with
  | [nft_mod_hash, metadata, metadata_updater_hash, inner_puzzle] =>
    match decodeMetadata metadata with
    | none => .err .malformedMetadata
    | some mf =>
      match innerStep mods inner_puzzle with
      | .err e => .err e
      | .ok oi =>
        .ok (assemble smh lid lph singleton_struct nft_state_layer nft_mod_hash
          metadata metadata_updater_hash inner_puzzle mf oi)
  | _ => .err .stateLayerArityError

/-- The decoder, classmethod UncurriedNFT.uncurry of the source (lines
85-181): uncurry the root and check it is the singleton top layer; read the
singleton struct positionally; uncurry the state-layer node and check it is
the NFT state layer; then run the state-layer tail. -/
def UncurriedNFT.uncurry (mods : Mods) (puzzle : Tr) : DecodeResult :=
  match puzzle.uncurry with
  | none => .err .outerShapeError
  | some (m, curried_args) =>
    if m ≠ mods.SINGLETON_TOP_LAYER_MOD then .err .unknownOuterModule
    else
      match curried_args.asIter with
      | some [singleton_struct, nft_state_layer] =>
        match singleton_struct with
        | .pair smh (.pair lid lph) =>
          match nft_state_layer.uncurry with
          | none => .err .stateShapeError
          | some (m2, curried_args2) =>
            if m2 ≠ mods.NFT_MOD then .err .unknownStateModule
            else
              match curried_args2.asIter with
              | some args =>
                stateArgsStep mods smh lid lph singleton_struct nft_state_layer args
              | none => .err .stateLayerArityError
        | _ => .err .malformedSingletonStruct
      | _ => .err .malformedSingletonStruct

/-- Reference constructor of a full, valid outer-plus-state puzzle: the
outer singleton wrapper curried around the singleton struct and a state
layer curried around the given metadata and inner puzzle (spec section 8,
round-trip constructor). -/
def mkNftPuzzle (mods : Mods) (smh lid lph nmh metadata muh inner : Tr) : Tr :=
  Tr.curry mods.SINGLETON_TOP_LAYER_MOD
    [Tr.pair smh (Tr.pair lid lph), Tr.curry mods.NFT_MOD [nmh, metadata, muh, inner]]

/-- Projection of a decode result onto its record, if any. -/
def DecodeResult.getOk : DecodeResult → Option UncurriedNFT
  | .ok r => some r
  | .err _ => none

/-- Concrete reference-module configuration used by the closed theorems:
three distinct pair trees, as every loadable module is a pair. -/
def mods0 : Mods :=
  { SINGLETON_TOP_LAYER_MOD := Tr.pair (Tr.atom [1]) nilT
    NFT_MOD := Tr.pair (Tr.atom [2]) nilT
    NFT_OWNERSHIP_LAYER := Tr.pair (Tr.atom [3]) nilT }

/-- Concrete p2 (spend-authority) puzzle curried into the ownership layer. -/
def p2orig : Tr := Tr.atom [9]

/-- Concrete transfer program with the five expected curried arguments,
royalty address at index 1 and royalty percentage at index 2. -/
def tp0 : Tr := Tr.curry (Tr.atom [20]) [nilT, Tr.atom [21], Tr.atom [22], nilT, nilT]

/-- Concrete nft-inner puzzle with the three expected curried arguments,
the p2 puzzle at index 2. -/
def nip0 : Tr := Tr.curry (Tr.atom [23]) [nilT, nilT, p2orig]

/-- Concrete ownership layer: the reference ownership module curried around
owner identity, transfer program and nft-inner puzzle. -/
def inner0 : Tr := Tr.curry mods0.NFT_OWNERSHIP_LAYER [Tr.atom [24], tp0, nip0]

/-- Concrete full puzzle with the ownership layer of inner0. -/
def pz1 : Tr :=
  mkNftPuzzle mods0 (Tr.atom [10]) (Tr.atom [11]) (Tr.atom [12]) (Tr.atom [13])
    nilT (Tr.atom [14]) inner0

/-- Concrete transfer program with only two curried arguments. -/
def tp8 : Tr := Tr.curry (Tr.atom [30]) [Tr.atom [31], Tr.atom [32]]

/-- Concrete nft-inner puzzle with only one curried argument. -/
def nip8 : Tr := Tr.curry (Tr.atom [33]) [Tr.atom [35]]

/-- Concrete ownership layer whose transfer program and nft-inner puzzle
have the wrong arities. -/
def inner8 : Tr := Tr.curry mods0.NFT_OWNERSHIP_LAYER [Tr.atom [34], tp8, nip8]

/-- Concrete full puzzle wrapping inner8. -/
def pz8 : Tr :=
  mkNftPuzzle mods0 (Tr.atom [40]) (Tr.atom [41]) (Tr.atom [42]) (Tr.atom [43])
    nilT (Tr.atom [44]) inner8

/-- Concrete metadata tree holding only the entry (h . 0xABCD). -/
def mdW5 : Tr := toProperList [Tr.pair (Tr.atom hKey) (Tr.atom [171, 205])]

/-- Entry list of mdW5. -/
def kvsW5 : List Tr := [Tr.pair (Tr.atom hKey) (Tr.atom [171, 205])]

/-- Expected decoded metadata of mdW5. -/
def mfW5 : MetaFields :=
  { data_uris := nilT
    data_hash := Tr.atom [171, 205]
    meta_uris := nilT
    meta_hash := Tr.atom []
    license_uris := nilT
    license_hash := Tr.atom []
    series_number := Tr.atom [1]
    series_total := Tr.atom [1] }

/-- Concrete metadata tree with two entries under the key u:
(u . ([A]), u . ([B])). -/
def mdW6 : Tr :=
  toProperList
    [Tr.pair (Tr.atom uKey) (toProperList [Tr.atom [65]]),
     Tr.pair (Tr.atom uKey) (toProperList [Tr.atom [66]])]

/-- Entry list of mdW6. -/
def kvsW6 : List Tr :=
  [Tr.pair (Tr.atom uKey) (toProperList [Tr.atom [65]]),
   Tr.pair (Tr.atom uKey) (toProperList [Tr.atom [66]])]

/-- Expected decoded metadata of mdW6: the later u entry wins. -/
def mfW6 : MetaFields :=
  { data_uris := toProperList [Tr.atom [66]]
    data_hash := Tr.atom []
    meta_uris := nilT
    meta_hash := Tr.atom []
    license_uris := nilT
    license_hash := Tr.atom []
    series_number := Tr.atom [1]
    series_total := Tr.atom [1] }

/-- Concrete full puzzle whose inner puzzle is a curried non-ownership
module. -/
def pzW10 : Tr :=
  mkNftPuzzle mods0 (Tr.atom [100]) (Tr.atom [101]) (Tr.atom [102]) (Tr.atom [103])
    nilT (Tr.atom [104]) (Tr.curry (Tr.atom [105]) [])

/-- Record decoded from pzW10. -/
def rW10 : UncurriedNFT :=
  assemble (Tr.atom [100]) (Tr.atom [101]) (Tr.atom [102])
    (Tr.pair (Tr.atom [100]) (Tr.pair (Tr.atom [101]) (Tr.atom [102])))
    (Tr.curry mods0.NFT_MOD [Tr.atom [103], nilT, Tr.atom [104], Tr.curry (Tr.atom [105]) []])
    (Tr.atom [103]) nilT (Tr.atom [104]) (Tr.curry (Tr.atom [105]) [])
    metaInit (noOwnership (Tr.curry (Tr.atom [105]) []))

/-! Helper lemmas about the modelled primitives. -/

theorem isProperList_toProperList (l : List Tr) : (toProperList l).isProperList = true := by
  induction l with
  | nil => rfl
  | cons t ts ih => simpa [toProperList, Tr.isProperList] using ih

theorem uncurry_curry (m : Tr) (l : List Tr) :
    (Tr.curry m l).uncurry = some (m, toProperList l) := by
  simp [Tr.curry, Tr.uncurry, isProperList_toProperList]

theorem asIter_toProperList (l : List Tr) : (toProperList l).asIter = some l := by
  induction l with
  | nil => rfl
  | cons t ts ih => simp [toProperList, Tr.asIter, ih]

theorem decode_mk (mods : Mods) (smh lid lph : Tr) (args : List Tr) :
    UncurriedNFT.uncurry mods (Tr.curry mods.SINGLETON_TOP_LAYER_MOD
      [Tr.pair smh (Tr.pair lid lph), Tr.curry mods.NFT_MOD args])
    = stateArgsStep mods smh lid lph (Tr.pair smh (Tr.pair lid lph))
        (Tr.curry mods.NFT_MOD args) args := by
  simp [UncurriedNFT.uncurry, uncurry_curry, asIter_toProperList]

theorem innerStep_mismatch (mods : Mods) (inner m argsTr : Tr)
    (h1 : inner.uncurry = some (m, argsTr))
    (h2 : m ≠ Tr.atom mods.NFT_OWNERSHIP_LAYER.treeHash) :
    innerStep mods inner = .ok (noOwnership inner) := by
  simp [innerStep, h1, h2]

theorem updAtomKey_du (m : MetaFields) (kb : List Nat) (v : Tr) :
    (updAtomKey m kb v).data_uris = if kb = uKey then v else m.data_uris := by
  simp [updAtomKey, apply_ite MetaFields.data_uris]

theorem updAtomKey_dh (m : MetaFields) (kb : List Nat) (v : Tr) :
    (updAtomKey m kb v).data_hash = if kb = hKey then v else m.data_hash := by
  simp [updAtomKey, apply_ite MetaFields.data_hash]

theorem updAtomKey_mu (m : MetaFields) (kb : List Nat) (v : Tr) :
    (updAtomKey m kb v).meta_uris = if kb = muKey then v else m.meta_uris := by
  simp [updAtomKey, apply_ite MetaFields.meta_uris]

theorem updAtomKey_mh (m : MetaFields) (kb : List Nat) (v : Tr) :
    (updAtomKey m kb v).meta_hash = if kb = mhKey then v else m.meta_hash := by
  simp [updAtomKey, apply_ite MetaFields.meta_hash]

theorem updAtomKey_lu (m : MetaFields) (kb : List Nat) (v : Tr) :
    (updAtomKey m kb v).license_uris = if kb = luKey then v else m.license_uris := by
  simp [updAtomKey, apply_ite MetaFields.license_uris]

theorem updAtomKey_lh (m : MetaFields) (kb : List Nat) (v : Tr) :
    (updAtomKey m kb v).license_hash = if kb = lhKey then v else m.license_hash := by
  simp [updAtomKey, apply_ite MetaFields.license_hash]

theorem updAtomKey_sn (m : MetaFields) (kb : List Nat) (v : Tr) :
    (updAtomKey m kb v).series_number = if kb = snKey then v else m.series_number := by
  simp [updAtomKey, apply_ite MetaFields.series_number]

theorem updAtomKey_st (m : MetaFields) (kb : List Nat) (v : Tr) :
    (updAtomKey m kb v).series_total = if kb = stKey then v else m.series_total := by
  simp [updAtomKey, apply_ite MetaFields.series_total]

theorem getD_lastVal_cons_atom (K kb : List Nat) (v : Tr) (rest : List Tr) (d : Tr) :
    (lastVal K (Tr.pair (Tr.atom kb) v :: rest)).getD d
    = (lastVal K rest).getD (if kb = K then v else d) := by
  cases hr : lastVal K rest <;> by_cases hk : kb = K <;> simp [lastVal, hr, hk]

theorem getD_lastVal_cons_pairkey (K : List Nat) (k1 k2 v : Tr) (rest : List Tr) (d : Tr) :
    (lastVal K (Tr.pair (Tr.pair k1 k2) v :: rest)).getD d = (lastVal K rest).getD d := by
  cases hr : lastVal K rest <;> simp [lastVal, hr]

theorem foldMeta_char : ∀ (kvs : List Tr) (m m' : MetaFields), foldMeta m kvs = some m' →
    m'.data_uris = (lastVal uKey kvs).getD m.data_uris ∧
    m'.data_hash = (lastVal hKey kvs).getD m.data_hash ∧
    m'.meta_uris = (lastVal muKey kvs).getD m.meta_uris ∧
    m'.meta_hash = (lastVal mhKey kvs).getD m.meta_hash ∧
    m'.license_uris = (lastVal luKey kvs).getD m.license_uris ∧
    m'.license_hash = (lastVal lhKey kvs).getD m.license_hash ∧
    m'.series_number = (lastVal snKey kvs).getD m.series_number ∧
    m'.series_total = (lastVal stKey kvs).getD m.series_total := by
  intro kvs
  induction kvs with
  | nil =>
    intro m m' h
    injection h with h2
    subst h2
    simp [lastVal]
  | cons kv rest ih =>
    intro m m' h
    simp only [foldMeta] at h
    cases hu : updMeta m kv with
    | none => rw [hu] at h; exact Option.noConfusion h
    | some m2 =>
      rw [hu] at h
      obtain ⟨i1, i2, i3, i4, i5, i6, i7, i8⟩ := ih m2 m' h
      cases kv with
      | atom bs => exact Option.noConfusion hu
      | pair k v =>
        cases k with
        | pair k1 k2 =>
          simp only [updMeta] at hu
          injection hu with hm2
          subst hm2
          exact ⟨by simpa [getD_lastVal_cons_pairkey] using i1,
                 by simpa [getD_lastVal_cons_pairkey] using i2,
                 by simpa [getD_lastVal_cons_pairkey] using i3,
                 by simpa [getD_lastVal_cons_pairkey] using i4,
                 by simpa [getD_lastVal_cons_pairkey] using i5,
                 by simpa [getD_lastVal_cons_pairkey] using i6,
                 by simpa [getD_lastVal_cons_pairkey] using i7,
                 by simpa [getD_lastVal_cons_pairkey] using i8⟩
        | atom kb =>
          simp only [updMeta] at hu
          injection hu with hm2
          subst hm2
          exact ⟨by simpa [getD_lastVal_cons_atom, updAtomKey_du] using i1,
                 by simpa [getD_lastVal_cons_atom, updAtomKey_dh] using i2,
                 by simpa [getD_lastVal_cons_atom, updAtomKey_mu] using i3,
                 by simpa [getD_lastVal_cons_atom, updAtomKey_mh] using i4,
                 by simpa [getD_lastVal_cons_atom, updAtomKey_lu] using i5,
                 by simpa [getD_lastVal_cons_atom, updAtomKey_lh] using i6,
                 by simpa [getD_lastVal_cons_atom, updAtomKey_sn] using i7,
                 by simpa [getD_lastVal_cons_atom, updAtomKey_st] using i8⟩

theorem foldMeta_total : ∀ (kvs : List Tr) (m : MetaFields),
    (∀ kv ∈ kvs, kv.isPairNode = true) → ∃ m', foldMeta m kvs = some m' := by
  intro kvs
  induction kvs with
  | nil => exact fun m _ => ⟨m, rfl⟩
  | cons kv rest ih =>
    intro m h
    have hkv := h kv (by simp)
    cases kv with
    | atom bs => simp [Tr.isPairNode] at hkv
    | pair k v =>
      cases k with
      | atom kb =>
        obtain ⟨m', hm'⟩ := ih (updAtomKey m kb v) (fun x hx => h x (by simp [hx]))
        exact ⟨m', by simp [foldMeta, updMeta, hm']⟩
      | pair k1 k2 =>
        obtain ⟨m', hm'⟩ := ih m (fun x hx => h x (by simp [hx]))
        exact ⟨m', by simp [foldMeta, updMeta, hm']⟩

theorem lastVal_none (K : List Nat) (kvs : List Tr)
    (h : ∀ kv ∈ kvs, kvKey kv ≠ some K) : lastVal K kvs = none := by
  induction kvs with
  | nil => rfl
  | cons kv rest ih =>
    have hr : lastVal K rest = none := ih (fun x hx => h x (by simp [hx]))
    cases kv with
    | atom bs => simp [lastVal, hr]
    | pair k v =>
      cases k with
      | pair a b => simp [lastVal, hr]
      | atom kb =>
        have hkb : kb ≠ K := by
          intro hkbe
          exact h (Tr.pair (Tr.atom kb) v) (by simp) (by simp [kvKey, hkbe])
        simp [lastVal, hr, hkb]

/-- C3: for every input tree whose root uncurries to a module whose
fingerprint differs from the outer-wrapper reference, decode fails with
UnknownOuterModule and returns no partial record. -/
theorem unknown_outer_module (mods : Mods) (p m argsTr : Tr)
    (h1 : p.uncurry = some (m, argsTr))
    (h2 : m.treeHash ≠ mods.SINGLETON_TOP_LAYER_MOD.treeHash) :
    UncurriedNFT.uncurry mods p = .err .unknownOuterModule := by
  have hm : m ≠ mods.SINGLETON_TOP_LAYER_MOD := fun he => h2 (by rw [he])
  simp [UncurriedNFT.uncurry, h1, hm]

/-- Witness for C3 at a concrete input. -/
theorem unknown_outer_module_witness :
    (Tr.curry (Tr.atom [70]) [nilT]).uncurry = some (Tr.atom [70], toProperList [nilT]) ∧
    (Tr.atom [70]).treeHash ≠ (mods0.SINGLETON_TOP_LAYER_MOD).treeHash ∧
    UncurriedNFT.uncurry mods0 (Tr.curry (Tr.atom [70]) [nilT]) = .err .unknownOuterModule :=
  ⟨by decide, by decide,
   unknown_outer_module mods0 (Tr.curry (Tr.atom [70]) [nilT]) (Tr.atom [70])
     (toProperList [nilT]) (by decide) (by decide)⟩

/-- C4: with a well-formed outer layer, a state-layer node curried from the
state-layer module with an argument sequence of any length other than 4
makes decode fail with StateLayerArityError; with exactly 4 arguments they
are read positionally as module hash, raw metadata, metadata-updater hash
and inner puzzle. -/
theorem state_layer_arity (mods : Mods) (smh lid lph : Tr) (args : List Tr) :
    (args.length ≠ 4 →
      UncurriedNFT.uncurry mods (Tr.curry mods.SINGLETON_TOP_LAYER_MOD
        [Tr.pair smh (Tr.pair lid lph), Tr.curry mods.NFT_MOD args])
        = .err .stateLayerArityError) ∧
    (∀ a b c d r, args = [a, b, c, d] →
      UncurriedNFT.uncurry mods (Tr.curry mods.SINGLETON_TOP_LAYER_MOD
        [Tr.pair smh (Tr.pair lid lph), Tr.curry mods.NFT_MOD args]) = .ok r →
      r.nft_mod_hash = a ∧ r.metadata = b ∧ r.metadata_updater_hash = c ∧
        r.inner_puzzle = d) := by
  constructor
  · intro h
    rw [decode_mk]
    rcases args with _ | ⟨a, _ | ⟨b, _ | ⟨c, _ | ⟨d, _ | ⟨e, rest⟩⟩⟩⟩⟩
    · rfl
    · rfl
    · rfl
    · rfl
    · simp at h
    · rfl
  · intro a b c d r hargs hok
    subst hargs
    rw [decode_mk] at hok
    simp only [stateArgsStep] at hok
    cases hmd : decodeMetadata b with
    | none => rw [hmd] at hok; exact DecodeResult.noConfusion hok
    | some mf =>
      rw [hmd] at hok
      cases hio : innerStep mods d with
      | err e => rw [hio] at hok; exact DecodeResult.noConfusion hok
      | ok oi =>
        rw [hio] at hok
        injection hok with h2
        subst h2
        exact ⟨rfl, rfl, rfl, rfl⟩

/-- Witness for C4 at a concrete 3-argument state layer. -/
theorem state_layer_arity_witness :
    ([Tr.atom [80], nilT, Tr.atom [81]] : List Tr).length ≠ 4 ∧
    UncurriedNFT.uncurry mods0 (Tr.curry mods0.SINGLETON_TOP_LAYER_MOD
      [Tr.pair (Tr.atom [82]) (Tr.pair (Tr.atom [83]) (Tr.atom [84])),
       Tr.curry mods0.NFT_MOD [Tr.atom [80], nilT, Tr.atom [81]]])
      = .err .stateLayerArityError :=
  ⟨by decide,
   (state_layer_arity mods0 (Tr.atom [82]) (Tr.atom [83]) (Tr.atom [84])
     [Tr.atom [80], nilT, Tr.atom [81]]).1 (by decide)⟩

/-- C5: for every metadata list that decodes, a key that never appears
leaves its field at the defined default — the empty list for the URI
fields, the zero (empty) atom for the hash fields, and the atom for the
integer 1 for series number and series total. -/
theorem metadata_defaults (md : Tr) (kvs : List Tr) (mf : MetaFields)
    (h1 : md.asIter = some kvs) (h2 : decodeMetadata md = some mf) :
    ((∀ kv ∈ kvs, kvKey kv ≠ some uKey) → mf.data_uris = nilT) ∧
    ((∀ kv ∈ kvs, kvKey kv ≠ some hKey) → mf.data_hash = Tr.atom []) ∧
    ((∀ kv ∈ kvs, kvKey kv ≠ some muKey) → mf.meta_uris = nilT) ∧
    ((∀ kv ∈ kvs, kvKey kv ≠ some mhKey) → mf.meta_hash = Tr.atom []) ∧
    ((∀ kv ∈ kvs, kvKey kv ≠ some luKey) → mf.license_uris = nilT) ∧
    ((∀ kv ∈ kvs, kvKey kv ≠ some lhKey) → mf.license_hash = Tr.atom []) ∧
    ((∀ kv ∈ kvs, kvKey kv ≠ some snKey) → mf.series_number = Tr.atom [1]) ∧
    ((∀ kv ∈ kvs, kvKey kv ≠ some stKey) → mf.series_total = Tr.atom [1]) := by
  have hf : foldMeta metaInit kvs = some mf := by
    simpa [decodeMetadata, h1] using h2
  obtain ⟨c1, c2, c3, c4, c5, c6, c7, c8⟩ := foldMeta_char kvs metaInit mf hf
  exact ⟨fun hk => by rw [c1, lastVal_none uKey kvs hk]; rfl,
         fun hk => by rw [c2, lastVal_none hKey kvs hk]; rfl,
         fun hk => by rw [c3, lastVal_none muKey kvs hk]; rfl,
         fun hk => by rw [c4, lastVal_none mhKey kvs hk]; rfl,
         fun hk => by rw [c5, lastVal_none luKey kvs hk]; rfl,
         fun hk => by rw [c6, lastVal_none lhKey kvs hk]; rfl,
         fun hk => by rw [c7, lastVal_none snKey kvs hk]; rfl,
         fun hk => by rw [c8, lastVal_none stKey kvs hk]; rfl⟩

/-- Witness for C5: the metadata list holding only (h . 0xABCD) decodes to
data hash 0xABCD, series number 1, series total 1 and empty URI fields. -/
theorem metadata_defaults_witness :
    mdW5.asIter = some kvsW5 ∧ decodeMetadata mdW5 = some mfW5 ∧
    mfW5.data_hash = Tr.atom [171, 205] ∧
    mfW5.data_uris = nilT ∧ mfW5.meta_uris = nilT ∧ mfW5.license_uris = nilT ∧
    mfW5.series_number = Tr.atom [1] ∧ mfW5.series_total = Tr.atom [1] := by
  refine ⟨rfl, rfl, rfl, ?_, ?_, ?_, ?_, ?_⟩
  · exact (metadata_defaults mdW5 kvsW5 mfW5 rfl rfl).1 (by decide)
  · exact (metadata_defaults mdW5 kvsW5 mfW5 rfl rfl).2.2.1 (by decide)
  · exact (metadata_defaults mdW5 kvsW5 mfW5 rfl rfl).2.2.2.2.1 (by decide)
  · exact (metadata_defaults mdW5 kvsW5 mfW5 rfl rfl).2.2.2.2.2.2.1 (by decide)
  · exact (metadata_defaults mdW5 kvsW5 mfW5 rfl rfl).2.2.2.2.2.2.2 (by decide)

/-- C6: for every metadata list of pair entries, decoding succeeds —
unrecognized keys are ignored without error — and each of the eight
recognized keys binds its field to the rest of the LAST entry carrying
that key in iteration order, the default standing when no entry does. -/
theorem metadata_last_wins (md : Tr) (kvs : List Tr)
    (h1 : md.asIter = some kvs) (h2 : ∀ kv ∈ kvs, kv.isPairNode = true) :
    decodeMetadata md = some
      { data_uris := (lastVal uKey kvs).getD nilT
        data_hash := (lastVal hKey kvs).getD (Tr.atom [])
        meta_uris := (lastVal muKey kvs).getD nilT
        meta_hash := (lastVal mhKey kvs).getD (Tr.atom [])
        license_uris := (lastVal luKey kvs).getD nilT
        license_hash := (lastVal lhKey kvs).getD (Tr.atom [])
        series_number := (lastVal snKey kvs).getD (Tr.atom [1])
        series_total := (lastVal stKey kvs).getD (Tr.atom [1]) } := by
  obtain ⟨m', hm'⟩ := foldMeta_total kvs metaInit h2
  obtain ⟨c1, c2, c3, c4, c5, c6, c7, c8⟩ := foldMeta_char kvs metaInit m' hm'
  have : decodeMetadata md = some m' := by simp [decodeMetadata, h1, hm']
  rw [this]
  exact congrArg some (MetaFields.ext c1 c2 c3 c4 c5 c6 c7 c8)

/-- Witness for C6: decoding the two-entry list (u . [A]), (u . [B]) yields
data URIs [B] — the last occurrence wins. -/
theorem metadata_last_wins_witness :
    decodeMetadata mdW6 = some mfW6 ∧ mfW6.data_uris = toProperList [Tr.atom [66]] := by
  have h := metadata_last_wins mdW6 kvsW6 rfl (by decide)
  exact ⟨h.trans (by decide), rfl⟩

/-- C2 (amended): for every valid outer-plus-state input whose state-layer
inner puzzle uncurries successfully to a module different from the atom
carrying the ownership-layer reference fingerprint, decode succeeds, all
ownership-group fields are absent together (noOwnership), and the p2
puzzle equals the state layer's inner-puzzle argument unchanged. -/
theorem ownership_absent_branch (mods : Mods) (smh lid lph nmh md muh inner m argsTr : Tr)
    (mf : MetaFields)
    (hmd : decodeMetadata md = some mf)
    (hu : inner.uncurry = some (m, argsTr))
    (hne : m ≠ Tr.atom mods.NFT_OWNERSHIP_LAYER.treeHash) :
    UncurriedNFT.uncurry mods (mkNftPuzzle mods smh lid lph nmh md muh inner)
      = .ok (assemble smh lid lph (Tr.pair smh (Tr.pair lid lph))
          (Tr.curry mods.NFT_MOD [nmh, md, muh, inner]) nmh md muh inner mf
          (noOwnership inner)) := by
  unfold mkNftPuzzle
  rw [decode_mk]
  simp only [stateArgsStep, hmd, innerStep_mismatch mods inner m argsTr hu hne]

/-- Counterexample to C2 as stated: an inner puzzle that is a bare atom is
not a curried ownership-layer module, yet decode does not succeed — the
uncurry failure is re-raised by the state-layer catch-all. -/
theorem ownership_absent_cex :
    (Tr.atom [9]).uncurry = none ∧
    UncurriedNFT.uncurry mods0 (mkNftPuzzle mods0 (Tr.atom [50]) (Tr.atom [51])
      (Tr.atom [52]) (Tr.atom [53]) nilT (Tr.atom [54]) (Tr.atom [9]))
      = .err .innerShapeError :=
  ⟨rfl, by decide⟩

/-- Witness for the amended C2 at a concrete input. -/
theorem ownership_absent_branch_witness :
    decodeMetadata nilT = some metaInit ∧
    (Tr.curry (Tr.atom [90]) []).uncurry = some (Tr.atom [90], nilT) ∧
    Tr.atom [90] ≠ Tr.atom mods0.NFT_OWNERSHIP_LAYER.treeHash ∧
    UncurriedNFT.uncurry mods0 (mkNftPuzzle mods0 (Tr.atom [91]) (Tr.atom [92])
      (Tr.atom [93]) (Tr.atom [94]) nilT (Tr.atom [95]) (Tr.curry (Tr.atom [90]) []))
      = .ok (assemble (Tr.atom [91]) (Tr.atom [92]) (Tr.atom [93])
          (Tr.pair (Tr.atom [91]) (Tr.pair (Tr.atom [92]) (Tr.atom [93])))
          (Tr.curry mods0.NFT_MOD [Tr.atom [94], nilT, Tr.atom [95], Tr.curry (Tr.atom [90]) []])
          (Tr.atom [94]) nilT (Tr.atom [95]) (Tr.curry (Tr.atom [90]) []) metaInit
          (noOwnership (Tr.curry (Tr.atom [90]) []))) :=
  ⟨rfl, by decide, by decide,
   ownership_absent_branch mods0 (Tr.atom [91]) (Tr.atom [92]) (Tr.atom [93])
     (Tr.atom [94]) nilT (Tr.atom [95]) (Tr.curry (Tr.atom [90]) []) (Tr.atom [90])
     nilT metaInit rfl (by decide) (by decide)⟩

/-- C7 (amended): an inner puzzle that uncurries to a module different from
the atom carrying the ownership-layer reference fingerprint takes the
ownership-absent branch — not an error; an inner puzzle that fails to
uncurry, however, is fatal (see the counterexample). -/
theorem mismatch_takes_absent_branch (mods : Mods) (inner m argsTr : Tr)
    (h1 : inner.uncurry = some (m, argsTr))
    (h2 : m ≠ Tr.atom mods.NFT_OWNERSHIP_LAYER.treeHash) :
    innerStep mods inner ≠ .err DecodeError.innerShapeError ∧
    innerStep mods inner = .ok (noOwnership inner) := by
  have h := innerStep_mismatch mods inner m argsTr h1 h2
  exact ⟨by rw [h]; exact fun he => InnerResult.noConfusion he, h⟩

/-- Counterexample to C7 as stated: an inner-puzzle node that fails to
uncurry makes decode fail rather than taking the ownership-absent branch. -/
theorem inner_uncurry_failure_fatal_cex :
    (Tr.atom [7]).uncurry = none ∧
    UncurriedNFT.uncurry mods0 (mkNftPuzzle mods0 (Tr.atom [60]) (Tr.atom [61])
      (Tr.atom [62]) (Tr.atom [63]) nilT (Tr.atom [64]) (Tr.atom [7]))
      = .err .innerShapeError :=
  ⟨rfl, by decide⟩

/-- Witness for the amended C7 at a concrete input. -/
theorem mismatch_takes_absent_branch_witness :
    (Tr.curry (Tr.atom [96]) [Tr.atom [97]]).uncurry
      = some (Tr.atom [96], toProperList [Tr.atom [97]]) ∧
    Tr.atom [96] ≠ Tr.atom mods0.NFT_OWNERSHIP_LAYER.treeHash ∧
    innerStep mods0 (Tr.curry (Tr.atom [96]) [Tr.atom [97]]) ≠
      .err DecodeError.innerShapeError ∧
    innerStep mods0 (Tr.curry (Tr.atom [96]) [Tr.atom [97]])
      = .ok (noOwnership (Tr.curry (Tr.atom [96]) [Tr.atom [97]])) := by
  have h := mismatch_takes_absent_branch mods0 (Tr.curry (Tr.atom [96]) [Tr.atom [97]])
    (Tr.atom [96]) (toProperList [Tr.atom [97]]) (by decide) (by decide)
  exact ⟨by decide, by decide, h.1, h.2⟩

/-- C9: the decoder is a pure function of the input tree — decoding the
same (or an equal) tree yields identical results. -/
theorem decode_deterministic (mods : Mods) (p q : Tr) (h : p = q) :
    UncurriedNFT.uncurry mods p = UncurriedNFT.uncurry mods q := by rw [h]

/-- Witness for C9 at a concrete input. -/
theorem decode_deterministic_witness :
    (Tr.atom [5] : Tr) = Tr.atom [5] ∧
    UncurriedNFT.uncurry mods0 (Tr.atom [5]) = UncurriedNFT.uncurry mods0 (Tr.atom [5]) :=
  ⟨rfl, decode_deterministic mods0 (Tr.atom [5]) (Tr.atom [5]) rfl⟩

/-- C10: every record the decoder returns has owner_pubkey = None — the
local pubkey is initialized to None and never reassigned on any path,
including the ownership branch. -/
theorem owner_pubkey_always_none (mods : Mods) (p : Tr) (r : UncurriedNFT)
    (h : UncurriedNFT.uncurry mods p = .ok r) : r.owner_pubkey = none := by
  unfold UncurriedNFT.uncurry stateArgsStep at h
  repeat' split at h
  all_goals first
    | exact DecodeResult.noConfusion h
    | (injection h with h2; subst h2; rfl)

/-- Witness for C10 at a concrete successfully decoded input. -/
theorem owner_pubkey_always_none_witness :
    UncurriedNFT.uncurry mods0 pzW10 = .ok rW10 ∧ rW10.owner_pubkey = none :=
  ⟨by decide, owner_pubkey_always_none mods0 pzW10 rW10 (by decide)⟩

/-- C1: evaluating the decoder at a puzzle built by currying the outer
wrapper around a state layer around a genuine ownership layer (inner0,
which curries the reference module NFT_OWNERSHIP_LAYER around an owner
identity, a 5-argument transfer program and a 3-argument nft-inner puzzle
holding the p2 puzzle p2orig).  The module hashes and launcher values
round-trip, but the source compares the uncurried inner module against the
atom of NFT_OWNERSHIP_LAYER.get_tree_hash(), which a curried module (a
pair) never equals, so the ownership branch is not taken: the returned p2
puzzle is the whole ownership layer inner0 rather than the curried-in
p2orig, and the ownership fields stay absent. -/
theorem ownership_layer_not_detected :
    ((UncurriedNFT.uncurry mods0 pz1).getOk.map (fun r =>
        (r.singleton_mod_hash, r.singleton_launcher_id, r.launcher_puzhash,
         r.nft_mod_hash, r.p2_puzzle, r.owner_did, r.royalty_address)))
      = some (Tr.atom [10], Tr.atom [11], Tr.atom [12], Tr.atom [13], inner0, none, none) ∧
    inner0 ≠ p2orig :=
  ⟨rfl, by decide⟩

/-- C8: evaluating the decoder at a puzzle whose genuine ownership layer
(inner8) carries a transfer program with only 2 curried arguments and an
nft-inner puzzle with only 1.  The claim requires the 5-element and
3-element arities to be enforced, but the ownership branch is not taken
(see C1), so decode succeeds with every ownership-group field absent
instead of inspecting the transfer program at all. -/
theorem transfer_arity_not_enforced :
    ((UncurriedNFT.uncurry mods0 pz8).getOk.map (fun r =>
        (r.royalty_address, r.trade_price_percentage, r.nft_inner_puzzle_hash,
         r.transfer_program_hash, r.p2_puzzle)))
      = some (none, none, none, none, inner8) := rfl
